import Mathlib

/-
Shallow embedding of the CarPi repository's core: the in-process event bus
(src/carpi/event_bus.py), the Bluetooth orchestrator and pairing agent
(src/carpi/modules/bluetooth/bt.py), and the trust/contact storage layer
(src/carpi/storage/db.py).  Python dictionaries are modelled as association
lists over a small dynamic-value type, asyncio queues as bounded FIFO lists,
and the SQLite tables as in-memory lists of rows with the source's SQL
semantics (including SQLite's rule that NULLs are pairwise distinct inside a
UNIQUE index).
-/

namespace CarPi

/-- Dynamic Python value, as far as the embedded code inspects values:
strings, integers, booleans, lists and None. -/
inductive PyVal
  | pstr (s : String)
  | pint (n : Int)
  | pbool (b : Bool)
  | plist (xs : List PyVal)
  | pnone

/-- A Python dict with string keys, as used for event payloads and property
maps (insertion-ordered association list; keys are unique by construction in
all payloads the code builds). -/
def PyDict : Type := List (String × PyVal)

/-- Dictionary lookup, `d.get(key)`: `Option.none` models an absent key. -/
def dictGet (d : PyDict) (key : String) : Option PyVal :=
  List.lookup key d

/-- Python truthiness (`bool(v)` / `if v:`) on the embedded value type. -/
def pyTruthy : PyVal → Bool
  | PyVal.pstr s => !(s == "")
  | PyVal.pint n => !(n == 0)
  | PyVal.pbool b => b
  | PyVal.plist xs => !xs.isEmpty
  | PyVal.pnone => false

/-- Python equality test `v == a` between an optional dynamic value and a
string: true exactly when the value is present, is a string, and is equal.
A missing key (`None`) or a non-string value never equals a string. -/
def pyEqStr : Option PyVal → String → Bool
  | some (PyVal.pstr s), a => s == a
  | _, _ => false

/-
Event bus, from src/carpi/event_bus.py.
-/

/-- One subscriber queue: `asyncio.Queue(maxsize)` plus an identity (Python
object identity; queues are compared by identity by `list.remove`).
`maxsize = 0` means unbounded, matching asyncio. -/
structure Queue (α : Type) where
  id : Nat
  maxsize : Nat
  items : List α
deriving DecidableEq

/-- The bus: `_topic_to_queues` (a `defaultdict(list)`) plus a counter
allocating fresh queue identities. -/
structure EventBus (α : Type) where
  topics : List (String × List (Queue α))
  nextId : Nat
deriving DecidableEq

/-- `EventBus.__init__`: no topics, no queues. -/
def mkEventBus (α : Type) : EventBus α := { topics := [], nextId := 0 }

/-- `queue.put_nowait(event)` wrapped in `try/except QueueFull: pass`
(event_bus.py lines 16-20): if the queue is bounded and full the delivery is
silently dropped, otherwise the event is appended. -/
def putNowait (q : Queue α) (e : α) : Queue α :=
  if 0 < q.maxsize ∧ q.maxsize ≤ q.items.length then q
  else { q with items := q.items ++ [e] }

/-- `EventBus.publish(topic, event)`: enqueue into every queue currently
registered under `topic`; a topic with no registration is a no-op. -/
def publish (bus : EventBus α) (topic : String) (e : α) : EventBus α :=
  { bus with
    topics := bus.topics.map (fun p => if p.1 = topic then (p.1, p.2.map (fun q => putNowait q e)) else p) }

/-- Publishing a whole list of events in order. -/
def publishList (bus : EventBus α) (topic : String) (es : List α) : EventBus α :=
  es.foldl (fun b e => publish b topic e) bus

/-- `self._topic_to_queues[topic].append(queue)` on a `defaultdict(list)`:
append to the existing entry, or create a fresh singleton entry. -/
def addQueueToTopic : List (String × List (Queue α)) → String → Queue α → List (String × List (Queue α))
  | [], t, q => [(t, [q])]
  | (t', qs) :: rest, t, q =>
      if t' = t then (t', qs ++ [q]) :: rest else (t', qs) :: addQueueToTopic rest t q

/-- The registration half of `EventBus.subscribe(topic, max_queue_size)`:
create a fresh bounded queue and register it under the topic.  Returns the
new bus state and the identity of the created queue. -/
def subscribeRegister (bus : EventBus α) (topic : String) (maxsize : Nat) : EventBus α × Nat :=
  ({ topics := addQueueToTopic bus.topics topic { id := bus.nextId, maxsize := maxsize, items := [] },
     nextId := bus.nextId + 1 },
   bus.nextId)

/-- Python `list.remove(x)`: drop the first element whose identity matches
(no-op when absent, which the source guards with an `in` check). -/
def removeFirstById : List (Queue α) → Nat → List (Queue α)
  | [], _ => []
  | q :: rest, qid => if q.id = qid then rest else q :: removeFirstById rest qid

/-- The `finally` block of `EventBus.subscribe` (event_bus.py lines 30-33):
on any exit of the consuming iteration, voluntary or by cancellation, the
subscription's queue is removed from its topic's registration. -/
def unsubscribe (bus : EventBus α) (topic : String) (qid : Nat) : EventBus α :=
  { bus with
    topics := bus.topics.map (fun p => if p.1 = topic then (p.1, removeFirstById p.2 qid) else p) }

/-- `self._topic_to_queues.get(topic, [])`. -/
def topicQueues (bus : EventBus α) (topic : String) : List (Queue α) :=
  match bus.topics.find? (fun p => p.1 == topic) with
  | some p => p.2
  | Option.none => []

/-- The pending items of the queue with identity `qid` under `topic`, when
that queue is registered. -/
def queueItems (bus : EventBus α) (topic : String) (qid : Nat) : Option (List α) :=
  ((topicQueues bus topic).find? (fun q => q.id == qid)).map Queue.items

/-- A bus holding exactly two fresh subscriptions (identities 0 and 1) to
`topic`, with capacities `cap1` and `cap2`. -/
def twoSubBus (α : Type) (topic : String) (cap1 cap2 : Nat) : EventBus α :=
  (subscribeRegister (subscribeRegister (mkEventBus α) topic cap1).1 topic cap2).1

/-- One observable state change of an event-bus instance: a publish, a new
subscription's registration, or a terminated subscription's cleanup. -/
inductive BusStep (α : Type) : EventBus α → EventBus α → Prop
  | publishStep (bus : EventBus α) (topic : String) (e : α) : BusStep α bus (publish bus topic e)
  | subscribeStep (bus : EventBus α) (topic : String) (maxsize : Nat) :
      BusStep α bus (subscribeRegister bus topic maxsize).1
  | unsubscribeStep (bus : EventBus α) (topic : String) (qid : Nat) :
      BusStep α bus (unsubscribe bus topic qid)

/-- Bus states reachable from a freshly constructed bus. -/
inductive ReachableBus (α : Type) : EventBus α → Prop
  | init : ReachableBus α (mkEventBus α)
  | step {b b' : EventBus α} : ReachableBus α b → BusStep α b b' → ReachableBus α b'

/-- Structural bus invariant: in every topic entry the queue identities are
pairwise distinct and below the allocation counter. -/
def busWF (bus : EventBus α) : Prop :=
  ∀ p ∈ bus.topics, (p.2.map (Queue.id)).Nodup ∧ ∀ q ∈ p.2, q.id < bus.nextId

/-
Trust store and contact table, from src/carpi/storage/db.py.
-/

/-- One row of the `bt_devices` table (address is the primary key). -/
structure BtDevice where
  address : String
  name : Option String
  trusted : Bool
  firstSeenUtc : String
  lastSeenUtc : String
deriving DecidableEq

/-- One row of the `contacts` table.  `name`, `number` and `raw_vcard` are
nullable columns. -/
structure ContactRow where
  deviceAddress : String
  name : Option String
  number : Option String
  rawVcard : Option String
deriving DecidableEq

/-- The database state the core reads and writes. -/
structure DbState where
  btDevices : List BtDevice
  contacts : List ContactRow
deriving DecidableEq

/-- `Database.set_bt_trusted` (db.py lines 106-113):
`UPDATE bt_devices SET trusted=? WHERE address=?`.  Updates matching rows in
place; inserts nothing. -/
def setBtTrusted (db : DbState) (address : String) (trusted : Bool) : DbState :=
  { db with
    btDevices := db.btDevices.map (fun d => if d.address = address then { d with trusted := trusted } else d) }

/-- `Database.is_bt_trusted` (db.py lines 115-120):
`SELECT trusted FROM bt_devices WHERE address=?` then `fetchone`; a missing
row reads as untrusted. -/
def isBtTrusted (db : DbState) (address : String) : Bool :=
  match db.btDevices.find? (fun d => d.address == address) with
  | some d => d.trusted
  | Option.none => false

/-- `Database.upsert_bt_device` (db.py lines 90-104): insert, or on an
address conflict update name (COALESCE keeps the old name when the new one
is NULL), trusted and last-seen. -/
def upsertBtDevice (db : DbState) (address : String) (name : Option String) (trusted : Bool) (ts : String) : DbState :=
  if db.btDevices.any (fun d => d.address == address) then
    { db with
      btDevices := db.btDevices.map (fun d =>
        if d.address = address then
          { d with
            name := match name with | some n => some n | Option.none => d.name,
            trusted := trusted,
            lastSeenUtc := ts }
        else d) }
  else
    { db with btDevices := db.btDevices ++ [{ address := address, name := name, trusted := trusted, firstSeenUtc := ts, lastSeenUtc := ts }] }

/-- Conflict test of the `UNIQUE(device_address, name, number)` index for an
`INSERT OR IGNORE`.  SQLite treats NULL as distinct from every value,
including another NULL, inside a unique index, so a NULL `name` or `number`
never conflicts. -/
def contactConflict (s r : ContactRow) : Bool :=
  s.deviceAddress == r.deviceAddress &&
  (match s.name, r.name with | some a, some b => a == b | _, _ => false) &&
  (match s.number, r.number with | some a, some b => a == b | _, _ => false)

/-- `INSERT OR IGNORE INTO contacts(...)`: append the row unless it conflicts
with an existing row under the unique index. -/
def insertOrIgnoreContact (table : List ContactRow) (r : ContactRow) : List ContactRow :=
  if table.any (fun s => contactConflict s r) then table else table ++ [r]

/-- `executemany` over the insert statement. -/
def insertContacts (table : List ContactRow) (rows : List ContactRow) : List ContactRow :=
  rows.foldl insertOrIgnoreContact table

/-- The rows `Database.replace_contacts` inserts for a device: each tuple is
`(name, number, raw_vcard)`. -/
def contactRowsFor (deviceAddress : String) (contacts : List (Option String × Option String × Option String)) : List ContactRow :=
  contacts.map (fun t => { deviceAddress := deviceAddress, name := t.1, number := t.2.1, rawVcard := t.2.2 })

/-- `Database.replace_contacts` (db.py lines 123-135):
`DELETE FROM contacts WHERE device_address=?` followed by
`INSERT OR IGNORE` of every tuple, in one transaction. -/
def replaceContactsDb (db : DbState) (deviceAddress : String) (contacts : List (Option String × Option String × Option String)) : DbState :=
  { db with
    contacts := insertContacts (db.contacts.filter (fun r => !(r.deviceAddress == deviceAddress)))
                               (contactRowsFor deviceAddress contacts) }

/-
Pairing agent, from src/carpi/modules/bluetooth/bt.py (class BluetoothAgent).
-/

/-- The error conditions the orchestrator raises.  `rejected` is the
`Exception("org.bluez.Error.Rejected")` the agent raises to decline a
pairing; `remoteCallError` is the `RuntimeError` the manager's RPC helpers
raise on an error reply. -/
inductive BtErr
  | rejected
  | remoteCallError (message : String)
deriving DecidableEq

/-- How an approval wait ends when no matching response has been consumed:
the subscription is still blocked, or the surrounding task is cancelled
(`asyncio.CancelledError`). -/
inductive WaitEnd
  | pending
  | cancelled
deriving DecidableEq

/-- The payload published on `bt.pair_request`:
`{"address": address, "name": name}` (bt.py lines 56-59). -/
structure PairRequest where
  address : String
  name : Option String
deriving DecidableEq

/-- `props.get("Address")` followed by the `isinstance(address, str)` guard
of `_approve_or_reject` (bt.py lines 72-75): the address is usable only when
present and a string. -/
def propAddress (props : PyDict) : Option String :=
  match dictGet props "Address" with
  | some (PyVal.pstr s) => some s
  | _ => Option.none

/-- `name if isinstance(name, str) else None` (bt.py line 79). -/
def propName (props : PyDict) : Option String :=
  match dictGet props "Name" with
  | some (PyVal.pstr s) => some s
  | _ => Option.none

/-- The consumption loop of `BluetoothAgent._await_approval` (bt.py lines
62-64): consume `bt.pair_response` events in delivery order until one whose
`address` field equals the awaited address arrives; that event's `approved`
field (absent read as False, then coerced by `bool`) is the decision.
`Option.none` means no delivered event matched, so the wait is still
consuming. -/
def awaitApprovalScan (responses : List PyDict) (address : String) : Option Bool :=
  match responses with
  | [] => Option.none
  | ev :: rest =>
      if pyEqStr (dictGet ev "address") address then
        some (pyTruthy ((dictGet ev "approved").getD (PyVal.pbool false)))
      else awaitApprovalScan rest address

/-- `BluetoothAgent._await_approval` outcome over the delivered responses and
the way the wait ends: a matching response decides; otherwise a cancellation
is caught and turned into False (bt.py lines 65-66); otherwise the wait is
still blocked. -/
def awaitApproval (responses : List PyDict) (wend : WaitEnd) (address : String) : Option Bool :=
  match awaitApprovalScan responses address with
  | some b => some b
  | Option.none =>
      match wend with
      | WaitEnd.cancelled => some false
      | WaitEnd.pending => Option.none

/-- Everything observable about one finished run of
`BluetoothAgent._approve_or_reject`: its result (success or the raised
error), the database it leaves behind, and the `bt.pair_request` events it
published. -/
structure DecisionOutcome where
  result : Except BtErr Unit
  db : DbState
  pairRequests : List PairRequest

/-- `BluetoothAgent._approve_or_reject` (bt.py lines 69-83), given the
device's property map, the `bt.pair_response` events its wait consumes, and
how the wait would end without a match.  `Option.none` models the callback
still blocked on its approval wait (it has published its request but not
returned).  A missing or non-string address raises the rejection error; a
trusted device returns success immediately with no publish and no database
write; otherwise the request is published and the decision follows the
correlated response: approval marks the device trusted, anything else raises
the rejection error. -/
def approveOrReject (props : PyDict) (responses : List PyDict) (wend : WaitEnd) (db : DbState) : Option DecisionOutcome :=
  match propAddress props with
  | Option.none => some { result := Except.error BtErr.rejected, db := db, pairRequests := [] }
  | some address =>
      if isBtTrusted db address then
        some { result := Except.ok (), db := db, pairRequests := [] }
      else
        match awaitApproval responses wend address with
        | some true =>
            some { result := Except.ok (), db := setBtTrusted db address true,
                   pairRequests := [{ address := address, name := propName props }] }
        | some false =>
            some { result := Except.error BtErr.rejected, db := db,
                   pairRequests := [{ address := address, name := propName props }] }
        | Option.none => Option.none

/-
Contact sync, from src/carpi/modules/bluetooth/bt.py
(BluetoothManager._sync_contacts, _wait_transfer_complete,
_remove_obex_session, _parse_vcf_file).
-/

/-- Prefix test on character lists (`needle.isPrefixOf hay`). -/
def charsPrefix : List Char → List Char → Bool
  | [], _ => true
  | _ :: _, [] => false
  | c :: cs, d :: ds => c == d && charsPrefix cs ds

/-- Containment of `needle` anywhere inside `hay` (Python `needle in hay`). -/
def charsContains (needle : List Char) : List Char → Bool
  | [] => needle.isEmpty
  | c :: rest => charsPrefix needle (c :: rest) || charsContains needle rest

/-- Python `needle in hay` on strings. -/
def strContains (hay needle : String) : Bool :=
  charsContains needle.data hay.data

/-
Character-level renderings of the Python string methods the source uses.
The core library's `String` routines are not kernel-reducible, so these are
re-implemented over `List Char`; they are observationally the Python
operations for the inputs the code handles (Python's `str.lower`/`str.upper`
are modelled at ASCII granularity, which is exact for every comparison the
code makes since all compared literals are ASCII).
-/

/-- The whitespace set of Python `str.strip` (ASCII part). -/
def isWsChar (c : Char) : Bool :=
  c == ' ' || c == '\t' || c == '\n' || c == '\r' || c == '\x0b' || c == '\x0c'

/-- Python `s.lower()`. -/
def strLower (s : String) : String :=
  String.mk (s.data.map Char.toLower)

/-- Python `s.upper()`. -/
def strUpper (s : String) : String :=
  String.mk (s.data.map Char.toUpper)

/-- Python `s.strip()`. -/
def strTrim (s : String) : String :=
  String.mk (((s.data.dropWhile isWsChar).reverse.dropWhile isWsChar).reverse)

/-- Trailing-whitespace removal (the `\s*$` tail of the separator regex). -/
def strTrimRight (s : String) : String :=
  String.mk ((s.data.reverse.dropWhile isWsChar).reverse)

/-- Python `s.startswith(pre)`. -/
def strStartsWith (s pre : String) : Bool :=
  charsPrefix pre.data s.data

/-- Python `s[n:]` (by code points, as Python slices are). -/
def strDrop (s : String) (n : Nat) : String :=
  String.mk (s.data.drop n)

/-- Splitting on every occurrence of one character, Python `s.split(c)` /
`str.splitlines` for newline-separated text. -/
def splitCharAux (c : Char) : List Char → List Char → List String
  | [], acc => [String.mk acc.reverse]
  | d :: rest, acc =>
      if d == c then String.mk acc.reverse :: splitCharAux c rest []
      else splitCharAux c rest (d :: acc)

/-- Python `s.split(c)` for a one-character separator. -/
def splitChar (c : Char) (s : String) : List String :=
  splitCharAux c s.data []

/-- Joining with a separator, Python `sep.join(parts)`. -/
def strIntercalate (sep : String) : List String → String
  | [] => ""
  | [p] => p
  | p :: rest => p ++ sep ++ strIntercalate sep rest

/-- Break a character list at the first occurrence of `c`. -/
def breakAtChar (c : Char) : List Char → Option (List Char × List Char)
  | [] => Option.none
  | d :: rest =>
      if d == c then some ([], rest)
      else (breakAtChar c rest).map (fun p => (d :: p.1, p.2))

/-- A line the separator regular expression `(?im)^END:VCARD\s*$` matches:
the line is `END:VCARD` case-insensitively, followed only by whitespace.
(The regex split is rendered line-based here; the regex's greedy `\s*` can
additionally swallow blank lines following the marker, which only moves
whitespace between adjacent chunks and is erased by the `strip()` below.) -/
def isEndVcardLine (line : String) : Bool :=
  strUpper (strTrimRight line) == "END:VCARD"

/-- Split a line list into the chunks between `END:VCARD` separator lines. -/
def splitLinesOnEnd : List String → List (List String)
  | [] => [[]]
  | line :: rest =>
      let r := splitLinesOnEnd rest
      if isEndVcardLine line then [] :: r
      else
        match r with
        | chunk :: more => (line :: chunk) :: more
        | [] => [[line]]

/-- `re.split(r"(?im)^END:VCARD\s*$", raw)` (bt.py line 475). -/
def splitEndVcard (raw : String) : List String :=
  (splitLinesOnEnd (splitChar '\n' raw)).map (fun ls => strIntercalate "\n" ls)

/-- Python `line.split(":", 1)` viewed through the `len(parts) == 2` branch:
the part before the first colon and everything after it, when a colon is
present. -/
def splitOnceColon (line : String) : Option (String × String) :=
  (breakAtChar ':' line.data).map (fun p => (String.mk p.1, String.mk p.2))

/-- The per-card line scan of `_parse_vcf_file` (bt.py lines 481-489): an
`FN:` line (case-insensitive) updates the name; the first `TEL` line with a
colon sets the number and breaks out of the scan. -/
def scanCardLines : List String → Option String → Option String → Option String × Option String
  | [], name, number => (name, number)
  | line :: rest, name, number =>
      let name' := if strStartsWith (strUpper line) "FN:" then some (strTrim (strDrop line 3)) else name
      if strStartsWith (strUpper line) "TEL" then
        match splitOnceColon line with
        | some (_, after) => (name', some (strTrim after))
        | Option.none => scanCardLines rest name' number
      else scanCardLines rest name' number

/-- `BluetoothManager._parse_vcf_file` (bt.py lines 469-494) as a function of
the transient file's contents; `Option.none` models the open or read raising,
which the bare `except` turns into an empty result.  Each kept card becomes a
`(name, number, raw record text with its terminator restored)` tuple. -/
def parseVcfFile (contents : Option String) : List (Option String × Option String × Option String) :=
  match contents with
  | Option.none => []
  | some raw =>
      (splitEndVcard raw).foldl
        (fun acc card =>
          if strContains card "BEGIN:VCARD" then
            let scanned := scanCardLines (splitChar '\n' card) Option.none Option.none
            acc ++ [(scanned.1, scanned.2, some (strTrim card ++ "\nEND:VCARD\n"))]
          else acc)
        []

/-- `status in ("complete", "error", "cancelled")` (bt.py line 453). -/
def isTerminalStatus (v : PyVal) : Bool :=
  match v with
  | PyVal.pstr s => s == "complete" || s == "error" || s == "cancelled"
  | _ => false

/-- One polling round of `_wait_transfer_complete`: fuel counts the remaining
iterations of `range(0, 200)`; each round reads the next `Status` property
reply (an error reply is skipped and polling continues).  Returns whether a
terminal status was observed; the source discards this and returns either
way, falling through silently when the budget is exhausted. -/
def waitTransferLoop : Nat → List (Except String PyVal) → Bool
  | 0, _ => false
  | Nat.succ fuel, [] => waitTransferLoop fuel []
  | Nat.succ fuel, reply :: rest =>
      match reply with
      | Except.ok v => if isTerminalStatus v then true else waitTransferLoop fuel rest
      | Except.error _ => waitTransferLoop fuel rest

/-- `BluetoothManager._wait_transfer_complete` (bt.py lines 437-455). -/
def waitTransferComplete (replies : List (Except String PyVal)) : Bool :=
  waitTransferLoop 200 replies

/-- The external world one `_sync_contacts` run interacts with: the session
DBus connection, the OBEX replies, the transient file's eventual contents
(`Option.none` when opening or reading it fails) and whether the contact
store raises mid-replace. -/
structure SyncEnv where
  sessionBusAvailable : Bool
  createSessionReply : Except String String
  pullAllReply : Except String String
  transferStatusReplies : List (Except String PyVal)
  fileContents : Option String
  storeFails : Bool

/-- Everything observable about one `_sync_contacts` run: the database it
leaves, the session path when `CreateSession` succeeded, every
`RemoveSession` call it issued, and whether the `finally` cleanup that
deletes the transient file ran. -/
structure SyncResult where
  db : DbState
  sessionPath : Option String
  removedSessions : List String
  fileCleanup : Bool

/-- `BluetoothManager._sync_contacts` (bt.py lines 377-435).  Without a
session bus it returns before the `try`, so no file cleanup is involved.
Inside the `try`: a `CreateSession` error reply returns; a `PullAll` error
reply removes the session and returns; otherwise the transfer status is
polled, the transient file is parsed (a read failure yields an empty list)
and the parsed set replaces the device's stored contacts — a raise from the
store is swallowed by the `except` (its transaction is left uncommitted, so
the stored state is unchanged).  The `finally` block deletes the transient
file on every one of those paths. -/
def syncContacts (env : SyncEnv) (address : String) (db : DbState) : SyncResult :=
  if !env.sessionBusAvailable then
    { db := db, sessionPath := Option.none, removedSessions := [], fileCleanup := false }
  else
    match env.createSessionReply with
    | Except.error _ =>
        { db := db, sessionPath := Option.none, removedSessions := [], fileCleanup := true }
    | Except.ok sessionPath =>
        match env.pullAllReply with
        | Except.error _ =>
            { db := db, sessionPath := some sessionPath, removedSessions := [sessionPath], fileCleanup := true }
        | Except.ok _ =>
            let _ := waitTransferComplete env.transferStatusReplies
            let contacts := parseVcfFile env.fileContents
            if env.storeFails then
              { db := db, sessionPath := some sessionPath, removedSessions := [], fileCleanup := true }
            else
              { db := replaceContactsDb db address contacts, sessionPath := some sessionPath,
                removedSessions := [], fileCleanup := true }

/-
Connectivity orchestrator loops, from src/carpi/modules/bluetooth/bt.py
(BluetoothManager._run inner handlers and helpers).
-/

/-- `_device_path_for` (bt.py lines 19-20): `address.replace(":", "_")` is a
per-character substitution for the one-character pattern. -/
def devicePathFor (address : String) : String :=
  "/org/bluez/hci0/dev_" ++ String.mk (address.data.map (fun c => if c == ':' then '_' else c))

/-- The outbound protocol calls the command and call loops issue. -/
inductive RpcCall
  | setAdapterProperty (prop : String) (value : PyVal)
  | connectDevice (address : String)
  | disconnectDevice (address : String)
  | ofonoAction (member : String)
  | ofonoDial (number : String)

/-- `(cmd.get("action") or "").lower()` (bt.py line 221): a missing or falsy
action reads as the empty string; a truthy non-string action makes
`.lower()` raise `AttributeError` (`Option.none`).  That line sits before
the `try`, so such a payload terminates the consuming loop; either way the
command performs no database write and no RPC. -/
def cmdAction (cmd : PyDict) : Option String :=
  match (if pyTruthy ((dictGet cmd "action").getD PyVal.pnone) then (dictGet cmd "action").getD PyVal.pnone else PyVal.pstr "") with
  | PyVal.pstr s => some (strLower s)
  | _ => Option.none

/-- The value a Python object bound as a SQL parameter compares equal to
against the TEXT-affinity `address` column of `bt_devices`.  A str binds as
TEXT; an int — and a bool, which the sqlite3 driver binds as the integers
1/0 — binds as INTEGER, and the comparison's TEXT affinity converts it to
its decimal text rendering, so e.g. the Python int 5 matches the stored
address "5".  A list is not a supported parameter type (the driver raises,
which the loop's `except` catches) and None compares equal to no row; both
leave the table untouched (`Option.none`). -/
def sqliteTextOfParam : PyVal → Option String
  | PyVal.pstr s => some s
  | PyVal.pint n => some (toString n)
  | PyVal.pbool b => some (if b then "1" else "0")
  | PyVal.plist _ => Option.none
  | PyVal.pnone => Option.none

/-- The body of `handle_bt_commands` for one consumed command (bt.py lines
220-249), projected to its database writes and outbound RPCs.  Inside the
`try`, per-command exceptions (a non-string address hitting `.replace`, an
unsupported bind type, an RPC error) are caught by the loop's `except`,
leaving the database untouched.  A `trust` command only checks its address
for truthiness, so `set_bt_trusted` runs for any truthy address value and
updates whichever row SQLite's TEXT affinity makes the bound parameter
equal to (see `sqliteTextOfParam`). -/
def handleBtCommand (env : SyncEnv) (cmd : PyDict) (db : DbState) : DbState × List RpcCall :=
  match cmdAction cmd with
  | Option.none => (db, [])
  | some action =>
      if action = "discoverable" then (db, [RpcCall.setAdapterProperty "Discoverable" (PyVal.pbool true)])
      else if action = "pairable" then (db, [RpcCall.setAdapterProperty "Pairable" (PyVal.pbool true)])
      else if action = "alias" then
        match dictGet cmd "alias" with
        | some (PyVal.pstr s) => if s ≠ "" then (db, [RpcCall.setAdapterProperty "Alias" (PyVal.pstr s)]) else (db, [])
        | _ => (db, [])
      else if action = "connect" then
        match dictGet cmd "address" with
        | some (PyVal.pstr a) => if a ≠ "" then (db, [RpcCall.connectDevice a]) else (db, [])
        | _ => (db, [])
      else if action = "disconnect" then
        match dictGet cmd "address" with
        | some (PyVal.pstr a) => if a ≠ "" then (db, [RpcCall.disconnectDevice a]) else (db, [])
        | _ => (db, [])
      else if action = "trust" then
        match dictGet cmd "address" with
        | some addr =>
            if pyTruthy addr then
              match sqliteTextOfParam addr with
              | some a =>
                  (setBtTrusted db a (pyTruthy ((dictGet cmd "trusted").getD (PyVal.pbool true))), [])
              | Option.none => (db, [])
            else (db, [])
        | Option.none => (db, [])
      else if action = "sync_contacts" then
        match dictGet cmd "address" with
        | some (PyVal.pstr a) => if a ≠ "" then ((syncContacts env a db).db, []) else (db, [])
        | _ => (db, [])
      else (db, [])

/-- The body of `handle_call_commands` for one consumed command (bt.py lines
252-266): pure RPC dispatch, no database access. -/
def handleCallCommand (cmd : PyDict) : List RpcCall :=
  match cmdAction cmd with
  | Option.none => []
  | some action =>
      if action = "answer" then [RpcCall.ofonoAction "Answer"]
      else if action = "hangup" then [RpcCall.ofonoAction "Hangup"]
      else if action = "dial" then
        match dictGet cmd "number" with
        | some (PyVal.pstr n) => if n ≠ "" then [RpcCall.ofonoDial n] else []
        | _ => []
      else if action = "decline" then [RpcCall.ofonoAction "Hangup"]
      else []

/-- One entry of the published `bt.status` device list (bt.py lines 363-370). -/
structure BtStatusEntry where
  address : PyVal
  name : PyVal
  paired : Bool
  trusted : Bool
  uuids : PyVal
  rssi : PyVal

/-- The `{"connected_devices": ..., "current": ...}` payload. -/
structure BtStatus where
  connectedDevices : List BtStatusEntry
  current : Option BtStatusEntry

/-- Entry built from a connected device's property map. -/
def deviceEntry (dev : PyDict) : BtStatusEntry :=
  { address := (dictGet dev "Address").getD PyVal.pnone,
    name := (dictGet dev "Name").getD PyVal.pnone,
    paired := pyTruthy ((dictGet dev "Paired").getD (PyVal.pbool false)),
    trusted := pyTruthy ((dictGet dev "Trusted").getD (PyVal.pbool false)),
    uuids := (dictGet dev "UUIDs").getD (PyVal.plist []),
    rssi := (dictGet dev "RSSI").getD PyVal.pnone }

/-- `BluetoothManager._get_bt_status` (bt.py lines 341-374) over the
`GetManagedObjects` reply (`Option.none` models an error reply).  Note this
routine reads DBus only: it takes no database state at all.  `if not dev`
also skips an object carrying an empty `Device1` property map. -/
def getBtStatus (managed : Option (List (String × List (String × PyDict)))) : BtStatus :=
  match managed with
  | Option.none => { connectedDevices := [], current := Option.none }
  | some objs =>
      let devices := objs.foldl
        (fun acc obj =>
          match List.lookup "org.bluez.Device1" obj.2 with
          | Option.none => acc
          | some dev =>
              if dev.isEmpty then acc
              else if pyTruthy ((dictGet dev "Connected").getD PyVal.pnone) then acc ++ [deviceEntry dev]
              else acc)
        []
      { connectedDevices := devices, current := devices.head? }

/-- One step of the core that can touch the database: a consumed
`bt.command`, a consumed `bt.call` command, one pairing-agent decision
callback, one direct contact sync, or one status-loop poll. -/
inductive CoreAction
  | command (env : SyncEnv) (cmd : PyDict)
  | callCmd (cmd : PyDict)
  | decision (props : PyDict) (responses : List PyDict) (wend : WaitEnd)
  | sync (env : SyncEnv) (address : String)
  | status (managed : Option (List (String × List (String × PyDict))))

/-- The database after one core step.  The call loop issues ofono RPCs only
and `_get_bt_status` reads DBus only, so neither touches the database; a
still-blocked decision has performed no database write yet. -/
def coreDbStep : CoreAction → DbState → DbState
  | CoreAction.command env cmd, db => (handleBtCommand env cmd db).1
  | CoreAction.callCmd _, db => db
  | CoreAction.decision props responses wend, db =>
      match approveOrReject props responses wend db with
      | some r => r.db
      | Option.none => db
  | CoreAction.sync env address, db => (syncContacts env address db).db
  | CoreAction.status _, db => db

/-
Concrete instances used by witnesses and counterexamples.
-/

/-- A well-formed `bt.pair_response` payload. -/
def pairRespEv (address : String) (approved : Bool) : PyDict :=
  [("address", PyVal.pstr address), ("approved", PyVal.pbool approved)]

/-- A device property map as returned by `GetAll` on a device object. -/
def demoProps : PyDict :=
  [("Address", PyVal.pstr "AA:BB:CC:DD:EE:FF"), ("Name", PyVal.pstr "Phone")]

/-- A store with the demo device present and untrusted. -/
def demoDbUntrusted : DbState :=
  { btDevices := [{ address := "AA:BB:CC:DD:EE:FF", name := Option.none, trusted := false,
                    firstSeenUtc := "t0", lastSeenUtc := "t0" }],
    contacts := [] }

/-- A store with the demo device present and trusted. -/
def demoDbTrusted : DbState :=
  { btDevices := [{ address := "AA:BB:CC:DD:EE:FF", name := Option.none, trusted := true,
                    firstSeenUtc := "t0", lastSeenUtc := "t0" }],
    contacts := [] }

/-- An environment in which no OBEX interaction can happen. -/
def demoEnvIdle : SyncEnv :=
  { sessionBusAvailable := false, createSessionReply := Except.error "unused",
    pullAllReply := Except.error "unused", transferStatusReplies := [],
    fileContents := Option.none, storeFails := false }

/-- A `bt.command` payload carrying an administrative trust command. -/
def demoTrustCmd : PyDict :=
  [("action", PyVal.pstr "trust"), ("address", PyVal.pstr "AA:BB:CC:DD:EE:FF")]

/-- An environment in which the whole contact sync succeeds. -/
def envSyncOk : SyncEnv :=
  { sessionBusAvailable := true,
    createSessionReply := Except.ok "/org/bluez/obex/session1",
    pullAllReply := Except.ok "/org/bluez/obex/session1/transfer1",
    transferStatusReplies := [Except.ok (PyVal.pstr "complete")],
    fileContents := some "BEGIN:VCARD\nFN:Alice\nTEL:123\nEND:VCARD\n",
    storeFails := false }

/-- An environment in which the phonebook pull request fails. -/
def envPullFail : SyncEnv :=
  { sessionBusAvailable := true,
    createSessionReply := Except.ok "/org/bluez/obex/session1",
    pullAllReply := Except.error "org.bluez.obex.Error.Failed",
    transferStatusReplies := [], fileContents := Option.none, storeFails := false }

/-- An environment in which the transfer runs but the transient file cannot
be read back. -/
def envReadFail : SyncEnv :=
  { sessionBusAvailable := true,
    createSessionReply := Except.ok "/org/bluez/obex/session1",
    pullAllReply := Except.ok "/org/bluez/obex/session1/transfer1",
    transferStatusReplies := [Except.ok (PyVal.pstr "complete")],
    fileContents := Option.none, storeFails := false }

/-- A store holding one previously synced contact for the demo device. -/
def demoDbWithContacts : DbState :=
  { btDevices := [],
    contacts := [{ deviceAddress := "AA:BB:CC:DD:EE:FF", name := some "Bob",
                   number := some "42", rawVcard := some "raw" }] }

/-- Rows matching a fully non-null `(device, name, number)` unique key. -/
def contactKeyP (d n m : String) : ContactRow → Bool :=
  fun r => r.deviceAddress == d && r.name == some n && r.number == some m

/-
Helper lemmas.
-/

lemma isBtTrusted_set_ne (db : DbState) (a a' : String) (v : Bool) (h : a ≠ a') :
    isBtTrusted (setBtTrusted db a' v) a = isBtTrusted db a := by
  obtain ⟨l, cs⟩ := db
  simp only [isBtTrusted, setBtTrusted]
  induction l with
  | nil => rfl
  | cons d rest ih =>
      simp only [List.map_cons, List.find?_cons]
      have haddr : ((if d.address = a' then { d with trusted := v } else d).address == a) = (d.address == a) := by
        by_cases hd : d.address = a' <;> simp [hd]
      rw [haddr]
      by_cases hda : (d.address == a) = true
      · have hdaeq : d.address = a := by simpa using hda
        have hne : ¬ d.address = a' := fun hcon => h (hdaeq ▸ hcon)
        rw [hda]
        simp [hne]
      · have hda' : (d.address == a) = false := by simpa using hda
        rw [hda']
        exact ih

lemma isBtTrusted_set_self (db : DbState) (a' : String) (v : Bool)
    (h : isBtTrusted (setBtTrusted db a' v) a' = true) : v = true := by
  obtain ⟨l, cs⟩ := db
  simp only [isBtTrusted, setBtTrusted] at h
  induction l with
  | nil => simp at h
  | cons d rest ih =>
      simp only [List.map_cons, List.find?_cons] at h
      by_cases hd : d.address = a'
      · simp [hd] at h
        exact h
      · have : ((if d.address = a' then { d with trusted := v } else d).address == a') = false := by
          simp [hd]
        rw [this] at h
        exact ih h

lemma replaceContactsDb_btDevices (db : DbState) (d : String) (cs : List (Option String × Option String × Option String)) :
    (replaceContactsDb db d cs).btDevices = db.btDevices := rfl

lemma syncContacts_btDevices (env : SyncEnv) (a : String) (db : DbState) :
    ((syncContacts env a db).db).btDevices = db.btDevices := by
  unfold syncContacts
  split
  · rfl
  · split
    · rfl
    · split
      · rfl
      · split <;> rfl

lemma isBtTrusted_congr (db db' : DbState) (h : db'.btDevices = db.btDevices) (a : String) :
    isBtTrusted db' a = isBtTrusted db a := by
  unfold isBtTrusted
  rw [h]

/-
Claim theorems: pairing agent.
-/

/-- C1: a pending pairing decision keyed to address X is not resolved by a
`bt.pair_response` whose address is some Y distinct from X (the decision
routine keeps consuming), while a subsequent response with address X and
approved true resolves the wait, calls `set_bt_trusted(X, true)` and makes
the callback return success. -/
theorem c1_pair_response_correlation
    (props : PyDict) (db : DbState) (X Y : String) (ev1 ev2 : PyDict)
    (hA : propAddress props = some X)
    (hT : isBtTrusted db X = false)
    (h1 : dictGet ev1 "address" = some (PyVal.pstr Y))
    (hNe : Y ≠ X)
    (h2a : dictGet ev2 "address" = some (PyVal.pstr X))
    (h2b : (dictGet ev2 "approved").getD (PyVal.pbool false) = PyVal.pbool true) :
    approveOrReject props [ev1] WaitEnd.pending db = Option.none ∧
    approveOrReject props [ev1, ev2] WaitEnd.pending db =
      some { result := Except.ok (), db := setBtTrusted db X true,
             pairRequests := [{ address := X, name := propName props }] } := by
  have hscan1 : pyEqStr (dictGet ev1 "address") X = false := by
    rw [h1]
    simp [pyEqStr]
    exact hNe
  have hstep : awaitApprovalScan [ev1, ev2] X = awaitApprovalScan [ev2] X := by
    simp only [awaitApprovalScan, hscan1]
    simp
  have hs2 : awaitApprovalScan [ev2] X = some true := by
    simp only [awaitApprovalScan]
    rw [h2a, h2b]
    simp [pyEqStr, pyTruthy]
  constructor
  · simp [approveOrReject, hA, hT, awaitApproval, awaitApprovalScan, hscan1]
  · simp [approveOrReject, hA, hT, awaitApproval, hstep, hs2]

/-- C1 witness at a concrete device, store and response pair. -/
theorem c1_witness :
    approveOrReject demoProps [pairRespEv "11:22:33:44:55:66" true] WaitEnd.pending demoDbUntrusted = Option.none ∧
    approveOrReject demoProps [pairRespEv "11:22:33:44:55:66" true, pairRespEv "AA:BB:CC:DD:EE:FF" true]
        WaitEnd.pending demoDbUntrusted =
      some { result := Except.ok (), db := setBtTrusted demoDbUntrusted "AA:BB:CC:DD:EE:FF" true,
             pairRequests := [{ address := "AA:BB:CC:DD:EE:FF", name := some "Phone" }] } := by
  exact c1_pair_response_correlation demoProps demoDbUntrusted "AA:BB:CC:DD:EE:FF" "11:22:33:44:55:66"
    (pairRespEv "11:22:33:44:55:66" true) (pairRespEv "AA:BB:CC:DD:EE:FF" true)
    rfl rfl rfl (by decide) rfl rfl

/-- C3: for a pending decision for X, a consumed `bt.pair_response` for X
with approved false makes the callback raise exactly the rejection error and
leaves the trust store untouched (no `set_bt_trusted` call). -/
theorem c3_rejection_raises_and_preserves_store
    (props : PyDict) (db : DbState) (X : String) (responses : List PyDict) (wend : WaitEnd)
    (hA : propAddress props = some X)
    (hT : isBtTrusted db X = false)
    (hscan : awaitApprovalScan responses X = some false) :
    approveOrReject props responses wend db =
      some { result := Except.error BtErr.rejected, db := db,
             pairRequests := [{ address := X, name := propName props }] } := by
  simp [approveOrReject, hA, hT, awaitApproval, hscan]

/-- C3 witness at a concrete denial. -/
theorem c3_witness :
    approveOrReject demoProps [pairRespEv "AA:BB:CC:DD:EE:FF" false] WaitEnd.pending demoDbUntrusted =
      some { result := Except.error BtErr.rejected, db := demoDbUntrusted,
             pairRequests := [{ address := "AA:BB:CC:DD:EE:FF", name := some "Phone" }] } := by
  exact c3_rejection_raises_and_preserves_store demoProps demoDbUntrusted "AA:BB:CC:DD:EE:FF"
    [pairRespEv "AA:BB:CC:DD:EE:FF" false] WaitEnd.pending rfl rfl rfl

/-- C5: a decision callback for an already-trusted address returns success
immediately, publishes no `bt.pair_request` and performs no trust-store
write. -/
theorem c5_trusted_short_circuit
    (props : PyDict) (db : DbState) (X : String) (responses : List PyDict) (wend : WaitEnd)
    (hA : propAddress props = some X)
    (hT : isBtTrusted db X = true) :
    approveOrReject props responses wend db =
      some { result := Except.ok (), db := db, pairRequests := [] } := by
  simp [approveOrReject, hA, hT]

/-- C5 witness at a concrete trusted device. -/
theorem c5_witness :
    approveOrReject demoProps [] WaitEnd.pending demoDbTrusted =
      some { result := Except.ok (), db := demoDbTrusted, pairRequests := [] } := by
  exact c5_trusted_short_circuit demoProps demoDbTrusted "AA:BB:CC:DD:EE:FF" [] WaitEnd.pending rfl rfl

/-- C10: a cancellation of a pending approval wait is caught and turned into
False, so the decision raises the rejection error, leaves the trust store
untouched, and is indistinguishable from an explicit denial. -/
theorem c10_cancellation_equals_denial
    (props : PyDict) (db : DbState) (X : String) (responses : List PyDict)
    (hA : propAddress props = some X)
    (hT : isBtTrusted db X = false)
    (hscan : awaitApprovalScan responses X = Option.none) :
    approveOrReject props responses WaitEnd.cancelled db =
      some { result := Except.error BtErr.rejected, db := db,
             pairRequests := [{ address := X, name := propName props }] } ∧
    approveOrReject props responses WaitEnd.cancelled db =
      approveOrReject props [pairRespEv X false] WaitEnd.pending db := by
  have hkey : pyEqStr (dictGet (pairRespEv X false) "address") X = true := by
    have haddr : dictGet (pairRespEv X false) "address" = some (PyVal.pstr X) := rfl
    rw [haddr]
    simp [pyEqStr]
  have happ : (dictGet (pairRespEv X false) "approved").getD (PyVal.pbool false) = PyVal.pbool false := rfl
  have hden : awaitApprovalScan [pairRespEv X false] X = some false := by
    simp only [awaitApprovalScan]
    rw [happ]
    simp [hkey, pyTruthy]
  constructor
  · simp [approveOrReject, hA, hT, awaitApproval, hscan]
  · simp [approveOrReject, hA, hT, awaitApproval, hscan, hden]

/-- C10 witness at a concrete cancelled wait. -/
theorem c10_witness :
    approveOrReject demoProps [] WaitEnd.cancelled demoDbUntrusted =
      some { result := Except.error BtErr.rejected, db := demoDbUntrusted,
             pairRequests := [{ address := "AA:BB:CC:DD:EE:FF", name := some "Phone" }] } ∧
    approveOrReject demoProps [] WaitEnd.cancelled demoDbUntrusted =
      approveOrReject demoProps [pairRespEv "AA:BB:CC:DD:EE:FF" false] WaitEnd.pending demoDbUntrusted := by
  exact c10_cancellation_equals_denial demoProps demoDbUntrusted "AA:BB:CC:DD:EE:FF" [] rfl rfl rfl

/-- C2: in any reachable database state, one core step can flip a device's
trusted flag from false to true only when it is a `bt.command` trust action
addressed to that device with a truthy trusted field, or a pairing decision
whose approval wait resolved affirmatively for that address; in particular no
contact-sync step and no status-poll step ever sets a trusted flag. -/
theorem c2_trusted_only_via_trust_cmd_or_approval
    (act : CoreAction) (db : DbState) (a : String)
    (h0 : isBtTrusted db a = false)
    (h1 : isBtTrusted (coreDbStep act db) a = true) :
    (∃ env cmd addrVal, act = CoreAction.command env cmd ∧ cmdAction cmd = some "trust" ∧
        dictGet cmd "address" = some addrVal ∧ pyTruthy addrVal = true ∧
        sqliteTextOfParam addrVal = some a ∧
        pyTruthy ((dictGet cmd "trusted").getD (PyVal.pbool true)) = true) ∨
    (∃ props responses wend, act = CoreAction.decision props responses wend ∧
        propAddress props = some a ∧ awaitApproval responses wend a = some true) := by
  cases act with
  | command env cmd =>
      simp only [coreDbStep, handleBtCommand] at h1
      split at h1
      · simp [h0] at h1
      next action hact =>
        split at h1
        · simp [h0] at h1
        split at h1
        · simp [h0] at h1
        split at h1
        · split at h1
          · split at h1 <;> simp [h0] at h1
          · simp [h0] at h1
        split at h1
        · split at h1
          · split at h1 <;> simp [h0] at h1
          · simp [h0] at h1
        split at h1
        · split at h1
          · split at h1 <;> simp [h0] at h1
          · simp [h0] at h1
        split at h1
        next htrust =>
          split at h1
          next addr haddr =>
            split at h1
            next htr =>
              split at h1
              next a' hconv =>
                have h1x : isBtTrusted
                    (setBtTrusted db a' (pyTruthy ((dictGet cmd "trusted").getD (PyVal.pbool true)))) a = true := h1
                by_cases haa : a = a'
                · subst haa
                  have hv := isBtTrusted_set_self db a _ h1x
                  left
                  exact ⟨env, cmd, addr, rfl, by rw [hact, htrust], haddr, htr, hconv, hv⟩
                · rw [isBtTrusted_set_ne db a a' _ haa] at h1x
                  simp [h0] at h1x
              next => simp [h0] at h1
            next => simp [h0] at h1
          next => simp [h0] at h1
        split at h1
        · split at h1
          next a' haddr =>
            split at h1
            · have h1x : isBtTrusted ((syncContacts env a' db).db) a = true := h1
              rw [isBtTrusted_congr db _ (syncContacts_btDevices env a' db) a] at h1x
              simp [h0] at h1x
            · simp [h0] at h1
          next => simp [h0] at h1
        · simp [h0] at h1
  | callCmd cmd =>
      simp only [coreDbStep] at h1
      simp [h0] at h1
  | decision props responses wend =>
      simp only [coreDbStep] at h1
      cases hA : propAddress props with
      | none =>
          simp [approveOrReject, hA, h0] at h1
      | some X =>
          by_cases hT : isBtTrusted db X = true
          · simp [approveOrReject, hA, hT, h0] at h1
          · have hT2 : isBtTrusted db X = false := by simpa using hT
            cases hw : awaitApproval responses wend X with
            | none =>
                simp [approveOrReject, hA, hT2, hw, h0] at h1
            | some b =>
                cases b with
                | false =>
                    simp [approveOrReject, hA, hT2, hw, h0] at h1
                | true =>
                    simp [approveOrReject, hA, hT2, hw] at h1
                    by_cases haa : a = X
                    · subst haa
                      right
                      exact ⟨props, responses, wend, rfl, hA, hw⟩
                    · rw [isBtTrusted_set_ne db a X true haa] at h1
                      simp [h0] at h1
  | sync env address =>
      simp only [coreDbStep] at h1
      rw [isBtTrusted_congr db _ (syncContacts_btDevices env address db) a] at h1
      simp [h0] at h1
  | status managed =>
      simp only [coreDbStep] at h1
      simp [h0] at h1

/-- C2 witness: a concrete trust command flipping a concrete untrusted
device to trusted is classified as the administrative trust path. -/
theorem c2_witness :
    (∃ env cmd addrVal, CoreAction.command demoEnvIdle demoTrustCmd = CoreAction.command env cmd ∧
        cmdAction cmd = some "trust" ∧
        dictGet cmd "address" = some addrVal ∧ pyTruthy addrVal = true ∧
        sqliteTextOfParam addrVal = some "AA:BB:CC:DD:EE:FF" ∧
        pyTruthy ((dictGet cmd "trusted").getD (PyVal.pbool true)) = true) ∨
    (∃ props responses wend, CoreAction.command demoEnvIdle demoTrustCmd = CoreAction.decision props responses wend ∧
        propAddress props = some "AA:BB:CC:DD:EE:FF" ∧
        awaitApproval responses wend "AA:BB:CC:DD:EE:FF" = some true) := by
  exact c2_trusted_only_via_trust_cmd_or_approval (CoreAction.command demoEnvIdle demoTrustCmd)
    demoDbUntrusted "AA:BB:CC:DD:EE:FF" (by decide) (by decide)

/-- SQLite TEXT affinity in action: a trust command whose address field is
the Python integer 5 updates the device whose stored TEXT address is "5"
(the bound INTEGER parameter is converted by the comparison's TEXT
affinity), so such a flip is still a trust-command flip, not a no-op. -/
theorem trust_command_int_address_text_affinity :
    (handleBtCommand demoEnvIdle [("action", PyVal.pstr "trust"), ("address", PyVal.pint 5)]
        { btDevices := [{ address := "5", name := Option.none, trusted := false,
                          firstSeenUtc := "t0", lastSeenUtc := "t0" }], contacts := [] }).1 =
      { btDevices := [{ address := "5", name := Option.none, trusted := true,
                        firstSeenUtc := "t0", lastSeenUtc := "t0" }], contacts := [] } := by
  decide

/-
Helper lemmas: event bus.
-/

lemma putNowait_id (q : Queue α) (e : α) : (putNowait q e).id = q.id := by
  unfold putNowait
  split <;> rfl

lemma foldl_putNowait_bounded (es : List α) : ∀ (idq m : Nat) (items : List α),
    0 < m → items.length ≤ m →
    es.foldl putNowait { id := idq, maxsize := m, items := items } =
      { id := idq, maxsize := m, items := items ++ es.take (m - items.length) } := by
  induction es with
  | nil => intro idq m items hm hle; simp
  | cons e rest ih =>
      intro idq m items hm hle
      by_cases hfull : m ≤ items.length
      · have hlen : items.length = m := le_antisymm hle hfull
        have hstep : putNowait { id := idq, maxsize := m, items := items } e =
            { id := idq, maxsize := m, items := items } := by
          simp [putNowait, hm, hfull]
        rw [List.foldl_cons, hstep, ih idq m items hm hle]
        have hz : m - items.length = 0 := by omega
        simp [hz]
      · push_neg at hfull
        have hstep : putNowait { id := idq, maxsize := m, items := items } e =
            { id := idq, maxsize := m, items := items ++ [e] } := by
          have : ¬ (0 < m ∧ m ≤ items.length) := by omega
          simp [putNowait, this]
        rw [List.foldl_cons, hstep, ih idq m (items ++ [e]) hm (by simp; omega)]
        have hsucc : m - items.length = (m - (items.length + 1)) + 1 := by omega
        simp [hsucc, List.take_succ_cons]

lemma publishList_pair (t : String) (es : List α) : ∀ (q1 q2 : Queue α) (nid : Nat),
    publishList { topics := [(t, [q1, q2])], nextId := nid } t es =
      { topics := [(t, [es.foldl putNowait q1, es.foldl putNowait q2])], nextId := nid } := by
  induction es with
  | nil => intro q1 q2 nid; rfl
  | cons e rest ih =>
      intro q1 q2 nid
      have hp : publish { topics := [(t, [q1, q2])], nextId := nid } t e =
          { topics := [(t, [putNowait q1 e, putNowait q2 e])], nextId := nid } := by
        simp [publish]
      simp only [publishList, List.foldl_cons]
      rw [hp]
      exact ih (putNowait q1 e) (putNowait q2 e) nid

lemma removeFirstById_sublist (l : List (Queue α)) (qid : Nat) :
    (removeFirstById l qid).Sublist l := by
  induction l with
  | nil => simp [removeFirstById]
  | cons q rest ih =>
      unfold removeFirstById
      by_cases h : q.id = qid
      · simp [h]
      · simp only [h, if_false]
        exact ih.cons₂ q

lemma removeFirstById_not_mem (l : List (Queue α)) (qid : Nat)
    (h : (l.map (Queue.id)).Nodup) :
    qid ∉ (removeFirstById l qid).map (Queue.id) := by
  induction l with
  | nil => simp [removeFirstById]
  | cons q rest ih =>
      simp only [List.map_cons, List.nodup_cons] at h
      unfold removeFirstById
      by_cases hq : q.id = qid
      · simp only [hq, if_true]
        rw [← hq]
        exact h.1
      · simp only [hq, if_false, List.map_cons, List.mem_cons]
        push_neg
        exact ⟨fun hcon => hq hcon.symm, ih h.2⟩

lemma busWF_init : busWF (mkEventBus α) := by
  intro p hp
  simp [mkEventBus] at hp

lemma busWF_publish (bus : EventBus α) (t : String) (e : α) (h : busWF bus) :
    busWF (publish bus t e) := by
  intro p hp
  simp only [publish, List.mem_map] at hp
  obtain ⟨p0, hp0, hup⟩ := hp
  obtain ⟨hn, hb⟩ := h p0 hp0
  by_cases hkey : p0.1 = t
  · rw [if_pos hkey] at hup
    subst hup
    constructor
    · simp only [List.map_map]
      have : (Queue.id) ∘ (fun q => putNowait q e) = (Queue.id (α := α)) := by
        funext q
        exact putNowait_id q e
      rw [this]
      exact hn
    · intro q hq
      simp only [List.mem_map] at hq
      obtain ⟨q0, hq0, rfl⟩ := hq
      rw [putNowait_id]
      exact hb q0 hq0
  · rw [if_neg hkey] at hup
    subst hup
    exact ⟨hn, hb⟩

lemma addQueueToTopic_wf (t : String) (m : Nat) :
    ∀ (ts : List (String × List (Queue α))) (n : Nat),
    (∀ p ∈ ts, (p.2.map (Queue.id)).Nodup ∧ ∀ q ∈ p.2, q.id < n) →
    ∀ p ∈ addQueueToTopic ts t { id := n, maxsize := m, items := [] },
      (p.2.map (Queue.id)).Nodup ∧ ∀ q ∈ p.2, q.id < n + 1 := by
  intro ts
  induction ts with
  | nil =>
      intro n h p hp
      simp only [addQueueToTopic, List.mem_singleton] at hp
      subst hp
      refine ⟨by simp, ?_⟩
      intro q hq
      simp only [List.mem_singleton] at hq
      subst hq
      exact Nat.lt_succ_self n
  | cons hd rest ih =>
      intro n h p hp
      obtain ⟨t', qs⟩ := hd
      simp only [addQueueToTopic] at hp
      by_cases hkey : t' = t
      · rw [if_pos hkey] at hp
        rcases List.mem_cons.mp hp with hp | hp
        · subst hp
          obtain ⟨hn, hb⟩ := h (t', qs) (List.mem_cons_self _ _)
          constructor
          · simp only [List.map_append, List.map_cons, List.map_nil]
            rw [List.nodup_append]
            refine ⟨hn, List.nodup_singleton _, ?_⟩
            intro x hx
            simp only [List.mem_singleton]
            obtain ⟨q0, hq0, rfl⟩ := List.mem_map.mp hx
            have hlt := hb q0 hq0
            intro hcon
            have hcon' : q0.id = n := hcon
            omega
          · intro q hq
            rcases List.mem_append.mp hq with hq | hq
            · have := hb q hq; omega
            · simp only [List.mem_singleton] at hq
              subst hq
              exact Nat.lt_succ_self n
        · obtain ⟨hn, hb⟩ := h p (List.mem_cons_of_mem _ hp)
          exact ⟨hn, fun q hq => by have := hb q hq; omega⟩
      · rw [if_neg hkey] at hp
        rcases List.mem_cons.mp hp with hp | hp
        · subst hp
          obtain ⟨hn, hb⟩ := h (t', qs) (List.mem_cons_self _ _)
          exact ⟨hn, fun q hq => by have := hb q hq; omega⟩
        · exact ih n (fun p' hp' => h p' (List.mem_cons_of_mem _ hp')) p hp

lemma busWF_subscribe (bus : EventBus α) (t : String) (m : Nat) (h : busWF bus) :
    busWF (subscribeRegister bus t m).1 := by
  intro p hp
  exact addQueueToTopic_wf t m bus.topics bus.nextId h p hp

lemma busWF_unsubscribe (bus : EventBus α) (t : String) (qid : Nat) (h : busWF bus) :
    busWF (unsubscribe bus t qid) := by
  intro p hp
  simp only [unsubscribe, List.mem_map] at hp
  obtain ⟨p0, hp0, hup⟩ := hp
  obtain ⟨hn, hb⟩ := h p0 hp0
  by_cases hkey : p0.1 = t
  · rw [if_pos hkey] at hup
    subst hup
    have hsub := removeFirstById_sublist p0.2 qid
    constructor
    · exact (hsub.map (Queue.id)).nodup hn
    · intro q hq
      exact hb q (hsub.subset hq)
  · rw [if_neg hkey] at hup
    subst hup
    exact ⟨hn, hb⟩

lemma reachable_busWF {bus : EventBus α} (h : ReachableBus α bus) : busWF bus := by
  induction h with
  | init => exact busWF_init
  | step _ hs ih =>
      cases hs with
      | publishStep t e => exact busWF_publish _ t e ih
      | subscribeStep t m => exact busWF_subscribe _ t m ih
      | unsubscribeStep t qid => exact busWF_unsubscribe _ t qid ih

lemma find?_map_keyPreserving (ts : List (String × List (Queue α))) (t : String)
    (f : List (Queue α) → List (Queue α)) :
    (ts.map (fun p => if p.1 = t then (p.1, f p.2) else p)).find? (fun p => p.1 == t) =
      Option.map (fun p => if p.1 = t then (p.1, f p.2) else p) (ts.find? (fun p => p.1 == t)) := by
  have hpred : ((fun (p : String × List (Queue α)) => p.1 == t) ∘
      (fun p => if p.1 = t then (p.1, f p.2) else p)) =
      (fun (p : String × List (Queue α)) => p.1 == t) := by
    funext p
    by_cases h : p.1 = t <;> simp [h]
  rw [List.find?_map, hpred]

/-
Claim theorems: event bus.
-/

/-- C6: with a subscriber of capacity K (0 < K) and an independent subscriber
with spare capacity both registered on a topic, publishing K+1 events before
any consumption leaves exactly the first K events, in publish order, in the
first subscriber's queue (the overflowing delivery is silently dropped), and
all K+1 events in the second subscriber's queue. -/
theorem c6_overflow_drops_only_on_full_queue
    (α : Type) (t : String) (K cap2 : Nat) (es : List α)
    (hK : 0 < K) (hlen : es.length = K + 1) (hcap : K + 1 ≤ cap2) :
    queueItems (publishList (twoSubBus α t K cap2) t es) t 0 = some (es.take K) ∧
    queueItems (publishList (twoSubBus α t K cap2) t es) t 1 = some es := by
  have hbus : twoSubBus α t K cap2 =
      { topics := [(t, [{ id := 0, maxsize := K, items := [] },
                        { id := 1, maxsize := cap2, items := [] }])], nextId := 2 } := by
    simp [twoSubBus, subscribeRegister, mkEventBus, addQueueToTopic]
  rw [hbus, publishList_pair]
  rw [foldl_putNowait_bounded es 0 K [] hK (by simp)]
  rw [foldl_putNowait_bounded es 1 cap2 [] (by omega) (by simp)]
  have htake2 : es.take (cap2 - List.length ([] : List α)) = es := by
    apply List.take_of_length_le
    simp [hlen]
    omega
  rw [htake2]
  constructor
  · simp [queueItems, topicQueues, List.find?]
  · simp [queueItems, topicQueues, List.find?]

/-- C6 witness: capacity 2, three events, companion capacity 3. -/
theorem c6_witness :
    queueItems (publishList (twoSubBus Nat "bt.status" 2 3) "bt.status" [10, 20, 30]) "bt.status" 0 =
      some [10, 20] ∧
    queueItems (publishList (twoSubBus Nat "bt.status" 2 3) "bt.status" [10, 20, 30]) "bt.status" 1 =
      some [10, 20, 30] := by
  exact c6_overflow_drops_only_on_full_queue Nat "bt.status" 2 3 [10, 20, 30]
    (by decide) (by decide) (by decide)

/-- C7: in every reachable bus state, running the subscription cleanup that
every exit path of the consuming iteration triggers removes the terminated
subscription's queue from its topic's registration: no queue with that
identity remains registered under the topic. -/
theorem c7_terminated_subscription_deregistered
    (α : Type) (bus : EventBus α) (h : ReachableBus α bus) (t : String) (qid : Nat) :
    qid ∉ (topicQueues (unsubscribe bus t qid) t).map (Queue.id) := by
  have hwf := reachable_busWF h
  unfold topicQueues unsubscribe
  simp only []
  rw [find?_map_keyPreserving bus.topics t (fun l => removeFirstById l qid)]
  cases hf : bus.topics.find? (fun p => p.1 == t) with
  | none => simp
  | some p =>
      have hmem : p ∈ bus.topics := List.mem_of_find?_eq_some hf
      have hkey : p.1 = t := by
        have := List.find?_some hf
        simpa using this
      have hmap : Option.map (fun p => if p.1 = t then (p.1, removeFirstById p.2 qid) else p) (some p)
          = some (p.1, removeFirstById p.2 qid) := by
        simp [hkey]
      rw [hmap]
      exact removeFirstById_not_mem p.2 qid (hwf p hmem).1

/-- C7 witness: subscribing once on a fresh bus and then running the cleanup
leaves no queue with the subscription's identity under the topic. -/
theorem c7_witness :
    0 ∉ (topicQueues (unsubscribe (subscribeRegister (mkEventBus Nat) "bt.pair_response" 100).1
          "bt.pair_response" 0) "bt.pair_response").map (Queue.id) := by
  exact c7_terminated_subscription_deregistered Nat
    (subscribeRegister (mkEventBus Nat) "bt.pair_response" 100).1
    (ReachableBus.step ReachableBus.init (BusStep.subscribeStep (mkEventBus Nat) "bt.pair_response" 100))
    "bt.pair_response" 0

/-
Helper lemmas: contact table.
-/

lemma contactConflict_base_false (base : List ContactRow) (r : ContactRow) (d : String)
    (hbase : ∀ s ∈ base, (s.deviceAddress == d) = false) (hr : r.deviceAddress = d) :
    base.any (fun s => contactConflict s r) = false := by
  rw [List.any_eq_false]
  intro s hs
  simp [contactConflict, hr, hbase s hs]

lemma insertOrIgnore_append (base acc : List ContactRow) (r : ContactRow) (d : String)
    (hbase : ∀ s ∈ base, (s.deviceAddress == d) = false) (hr : r.deviceAddress = d) :
    insertOrIgnoreContact (base ++ acc) r = base ++ insertOrIgnoreContact acc r := by
  unfold insertOrIgnoreContact
  rw [List.any_append, contactConflict_base_false base r d hbase hr]
  simp only [Bool.false_or]
  by_cases h : acc.any (fun s => contactConflict s r) = true
  · rw [if_pos h, if_pos h]
  · rw [if_neg h, if_neg h, List.append_assoc]

lemma insertContacts_append (d : String) :
    ∀ (rows : List ContactRow), (∀ r ∈ rows, r.deviceAddress = d) →
    ∀ (base acc : List ContactRow), (∀ s ∈ base, (s.deviceAddress == d) = false) →
    insertContacts (base ++ acc) rows = base ++ insertContacts acc rows := by
  intro rows
  induction rows with
  | nil => intro _ base acc _; rfl
  | cons r rest ih =>
      intro hrows base acc hbase
      simp only [insertContacts, List.foldl_cons]
      rw [insertOrIgnore_append base acc r d hbase (hrows r (List.mem_cons_self _ _))]
      exact ih (fun r' hr' => hrows r' (List.mem_cons_of_mem _ hr')) base (insertOrIgnoreContact acc r) hbase

lemma key_conflict (d n m : String) (s r : ContactRow)
    (hs : contactKeyP d n m s = true) (hr : contactKeyP d n m r = true) :
    contactConflict s r = true := by
  simp only [contactKeyP, Bool.and_eq_true, beq_iff_eq] at hs hr
  obtain ⟨⟨hs1, hs2⟩, hs3⟩ := hs
  obtain ⟨⟨hr1, hr2⟩, hr3⟩ := hr
  simp [contactConflict, hs1, hs2, hs3, hr1, hr2, hr3]

lemma countP_insertOrIgnore_le_one (d n m : String) (table : List ContactRow) (r : ContactRow)
    (h : table.countP (contactKeyP d n m) ≤ 1) :
    (insertOrIgnoreContact table r).countP (contactKeyP d n m) ≤ 1 := by
  unfold insertOrIgnoreContact
  by_cases hc : table.any (fun s => contactConflict s r) = true
  · rw [if_pos hc]; exact h
  · rw [if_neg hc, List.countP_append]
    by_cases hr : contactKeyP d n m r = true
    · have hzero : table.countP (contactKeyP d n m) = 0 := by
        by_contra hnz
        have hpos : 0 < table.countP (contactKeyP d n m) := Nat.pos_of_ne_zero hnz
        obtain ⟨s, hsmem, hks⟩ := List.countP_pos_iff.mp hpos
        exact hc (List.any_eq_true.mpr ⟨s, hsmem, key_conflict d n m s r hks hr⟩)
      have hone : List.countP (contactKeyP d n m) [r] = 1 := by
        simp [List.countP_cons, hr]
      omega
    · have hrf : contactKeyP d n m r = false := by simpa using hr
      have hzero : List.countP (contactKeyP d n m) [r] = 0 := by
        simp [List.countP_cons, hrf]
      omega

lemma countP_insertContacts_le_one (d n m : String) :
    ∀ (rows : List ContactRow) (table : List ContactRow),
    table.countP (contactKeyP d n m) ≤ 1 →
    (insertContacts table rows).countP (contactKeyP d n m) ≤ 1 := by
  intro rows
  induction rows with
  | nil => intro table h; exact h
  | cons r rest ih =>
      intro table h
      simp only [insertContacts, List.foldl_cons]
      exact ih (insertOrIgnoreContact table r) (countP_insertOrIgnore_le_one d n m table r h)

/-
Claim theorems: contact replacement and sync cleanup.
-/

/-- C8 counterexample: two tuples of the same import carrying the identical
`(name, number)` pair `(NULL, NULL)` are both stored for device D — the
claimed deduplication to one row fails, because SQLite treats NULLs as
pairwise distinct inside the UNIQUE index backing `INSERT OR IGNORE`. -/
theorem c8_counterexample :
    (replaceContactsDb { btDevices := [], contacts := [] } "D"
        [(Option.none, Option.none, some "BEGIN:VCARD a"),
         (Option.none, Option.none, some "BEGIN:VCARD b")]).contacts =
      [{ deviceAddress := "D", name := Option.none, number := Option.none, rawVcard := some "BEGIN:VCARD a" },
       { deviceAddress := "D", name := Option.none, number := Option.none, rawVcard := some "BEGIN:VCARD b" }] := rfl

/-- C8 amended: `replace_contacts(D, contacts)` removes every previously
stored row for D and inserts the new set in one logical delete-then-insert
(rows of other devices are untouched and the inserted set depends only on
the tuples), and any two tuples with an identical fully non-null
`(name, number)` pair yield at most one stored row; tuples with a NULL name
or number are exempt from deduplication. -/
theorem c8_amended_replace_and_nonnull_dedup (db : DbState) (d : String)
    (cs : List (Option String × Option String × Option String)) (n m : String) :
    (replaceContactsDb db d cs).contacts =
      db.contacts.filter (fun r => !(r.deviceAddress == d)) ++ insertContacts [] (contactRowsFor d cs) ∧
    (replaceContactsDb db d cs).contacts.countP (contactKeyP d n m) ≤ 1 := by
  have hbase : ∀ s ∈ db.contacts.filter (fun r => !(r.deviceAddress == d)),
      (s.deviceAddress == d) = false := by
    intro s hs
    have := (List.mem_filter.mp hs).2
    simpa using this
  have hrows : ∀ r ∈ contactRowsFor d cs, r.deviceAddress = d := by
    intro r hr
    obtain ⟨tp, _, rfl⟩ := List.mem_map.mp hr
    rfl
  have hmain : (replaceContactsDb db d cs).contacts =
      db.contacts.filter (fun r => !(r.deviceAddress == d)) ++ insertContacts [] (contactRowsFor d cs) := by
    have hsplit := insertContacts_append d (contactRowsFor d cs) hrows
      (db.contacts.filter (fun r => !(r.deviceAddress == d))) [] hbase
    rw [List.append_nil] at hsplit
    exact hsplit
  refine ⟨hmain, ?_⟩
  have hkept : (db.contacts.filter (fun r => !(r.deviceAddress == d))).countP (contactKeyP d n m) = 0 := by
    rw [List.countP_eq_zero]
    intro a ha
    simp [contactKeyP, hbase a ha]
  exact countP_insertContacts_le_one d n m (contactRowsFor d cs) _ (by rw [hkept]; omega)

/-- C9: when the transient vCard file cannot be opened or read, the parser
returns an empty list instead of raising, the sync still calls
`replace_contacts` with that empty list, and every previously stored contact
for the device is deleted — a read failure erases the device's contacts
rather than aborting the sync. -/
theorem c9_read_failure_erases_contacts
    (env : SyncEnv) (addr : String) (db : DbState) (s tr : String)
    (hb : env.sessionBusAvailable = true)
    (hc : env.createSessionReply = Except.ok s)
    (hp : env.pullAllReply = Except.ok tr)
    (hf : env.fileContents = Option.none)
    (hs : env.storeFails = false) :
    parseVcfFile env.fileContents = [] ∧
    (syncContacts env addr db).db.contacts =
      db.contacts.filter (fun r => !(r.deviceAddress == addr)) := by
  constructor
  · rw [hf]; rfl
  · simp [syncContacts, hb, hc, hp, hf, hs, replaceContactsDb, parseVcfFile, contactRowsFor,
      insertContacts]

/-- C9 witness: a concrete failed read erases the device's stored contact. -/
theorem c9_witness :
    parseVcfFile envReadFail.fileContents = [] ∧
    (syncContacts envReadFail "AA:BB:CC:DD:EE:FF" demoDbWithContacts).db.contacts =
      demoDbWithContacts.contacts.filter (fun r => !(r.deviceAddress == "AA:BB:CC:DD:EE:FF")) := by
  exact c9_read_failure_erases_contacts envReadFail "AA:BB:CC:DD:EE:FF" demoDbWithContacts
    "/org/bluez/obex/session1" "/org/bluez/obex/session1/transfer1" rfl rfl rfl rfl rfl

/-- C4 counterexample: on a fully successful sync the object-transfer
session is created but `RemoveSession` is never called — teardown does not
happen regardless of outcome, contradicting the claim. -/
theorem c4_counterexample :
    (syncContacts envSyncOk "AA:BB:CC:DD:EE:FF" { btDevices := [], contacts := [] }).sessionPath =
      some "/org/bluez/obex/session1" ∧
    (syncContacts envSyncOk "AA:BB:CC:DD:EE:FF" { btDevices := [], contacts := [] }).removedSessions = [] :=
  ⟨rfl, rfl⟩

/-- C4 amended: once the session bus is available, the transient local file
is deleted in the final cleanup step regardless of success or failure
anywhere in the sync, but the session is torn down with an explicit
`RemoveSession` call only when the phonebook pull request fails; on transfer
completion or a parse/store failure the session is left in place. -/
theorem c4_amended_cleanup_always_teardown_only_on_pull_failure
    (env : SyncEnv) (addr : String) (db : DbState)
    (hb : env.sessionBusAvailable = true) :
    (syncContacts env addr db).fileCleanup = true ∧
    (syncContacts env addr db).removedSessions =
      (match env.createSessionReply, env.pullAllReply with
       | Except.ok s, Except.error _ => [s]
       | _, _ => []) := by
  unfold syncContacts
  rw [hb]
  rcases hcr : env.createSessionReply with e | s
  · simp
  · rcases hpr : env.pullAllReply with e2 | t2
    · simp
    · cases hsf : env.storeFails <;> simp [hsf]

/-- C4 amended witness: a concrete pull failure removes exactly the created
session, and the file cleanup runs. -/
theorem c4_amended_witness :
    (syncContacts envPullFail "AA:BB:CC:DD:EE:FF" { btDevices := [], contacts := [] }).fileCleanup = true ∧
    (syncContacts envPullFail "AA:BB:CC:DD:EE:FF" { btDevices := [], contacts := [] }).removedSessions =
      ["/org/bluez/obex/session1"] := by
  exact c4_amended_cleanup_always_teardown_only_on_pull_failure envPullFail "AA:BB:CC:DD:EE:FF"
    { btDevices := [], contacts := [] } rfl

end CarPi
